import Mathlib

/-
  Verification development for the `generate_compare` repository
  (src/compare/netcdf.py, src/compare/write.py).

  The Python code is shallowly embedded:
  * Python dicts become insertion-ordered association lists
    (`List (String × α)`); `d[k]` / `k in d` become `lookupA`;
    dict assignment becomes `insertEntry` (overwrite in place, append new).
  * NetCDF attribute / array values become the inductive `NCVal`
    (strings, integers, and a NaN element for float NaN payloads).
  * numpy masked arrays become `MaskedArray` (shape, flat data, mask);
    `.filled(-9999)` and `np.array_equal(..., equal_nan=True)` are modelled
    by `MaskedArray.filled` and `array_equal`.
  * Functions that can raise a Python `UnboundLocalError` / `NameError`
    (a local variable read before any assignment) return `Except String`.
  * `rf.write(...)` / `html_fh.write(...)` calls write human-readable text to
    an already-open file handle and never affect control flow or the values
    returned; the embedded functions model the returned values and the
    persisted JSON state, with the report text elided.
-/

namespace GenerateCompare

/-- Scalar value of a NetCDF attribute or array element.  `nan` models a
float NaN payload: under Python / numpy equality NaN compares unequal to
itself, which `pyEq` reproduces. -/
inductive NCVal where
  | str (s : String)
  | int (n : Int)
  | nan
deriving DecidableEq

/-- Python `==` on scalar values: strings by content, integers by value,
NaN unequal to everything including itself, distinct types unequal. -/
def pyEq : NCVal → NCVal → Bool
  | .str a, .str b => a == b
  | .int a, .int b => a == b
  | _, _ => false

/-- Whether a value is the NaN element (`np.isnan`). -/
def NCVal.isNaN : NCVal → Bool
  | .nan => true
  | _ => false

/-- Element comparison used by `np.array_equal(..., equal_nan=True)`:
ordinary equality, except that NaN is treated as equal to NaN. -/
def eqNan (a b : NCVal) : Bool := pyEq a b || (a.isNaN && b.isNaN)

/-- Lookup in an insertion-ordered association list: Python `d[k]`
(`some` result) and `k in d` (`isSome`). -/
def lookupA {α : Type} : List (String × α) → String → Option α
  | [], _ => none
  | (k, v) :: rest, key => if k = key then some v else lookupA rest key

/-- The key sequence of an association list (Python `d.keys()`,
insertion order). -/
def keysOf {α : Type} (l : List (String × α)) : List String := l.map Prod.fst

/-- A Python dict never holds the same key twice. -/
abbrev NodupKeys {α : Type} (l : List (String × α)) : Prop := (keysOf l).Nodup

/-- A NetCDF dimension object: its `.name` and `.size` fields. -/
structure Dim where
  name : String
  size : Nat
deriving DecidableEq

/-- A plain numpy array: shape plus row-major flat data.  A real numpy
array always satisfies `data.length = shape.prod`; the embedding keeps the
flat length explicit where that invariant matters. -/
structure NPArray where
  shape : List Nat
  data : List NCVal
deriving DecidableEq

/-- A numpy masked array: shape, flat data, and a boolean mask marking
missing elements (`mask.length = data.length` for real arrays). -/
structure MaskedArray where
  shape : List Nat
  data : List NCVal
  mask : List Bool
deriving DecidableEq

/-- Model of `ma.filled(fv)`: replace every masked element by the fill value. -/
def MaskedArray.filled (a : MaskedArray) (fv : Int) : NPArray :=
  ⟨a.shape, List.zipWith (fun v m => if m then NCVal.int fv else v) a.data a.mask⟩

/-- Model of `np.array_equal(a, b, equal_nan=True)`: shapes must agree, and the
elements must agree pairwise under `eqNan`.  (For real numpy arrays
`data.length = shape.prod`, so equal shapes force equal flat lengths; the
embedding states the length condition explicitly because its lists are
unconstrained.) -/
def array_equal (a b : NPArray) : Bool :=
  a.shape == b.shape && a.data.length == b.data.length &&
    (List.zipWith eqNan a.data b.data).all (fun x => x)

/-- A NetCDF variable: its attribute dict (`v.__dict__`) and its
masked-array payload (`v[:]`). -/
structure NCVar where
  atts : List (String × NCVal)
  data : MaskedArray

/-- Result dict of `compare_attributes` (netcdf.py lines 86-111). -/
structure AttDiff where
  prod_present_only : List String
  dev_present_only : List String
  global_att : List (String × NCVal × NCVal)
deriving DecidableEq

/-- Result dict of `compare_dimensions` (netcdf.py lines 113-140). -/
structure DimDiff where
  prod_present_only : List String
  dev_present_only : List String
  names_not_equal : List (String × String × String)
  size_not_equal : List (String × Nat × Nat)
deriving DecidableEq

/-- Per-variable entry of `var_content`: the two booleans are absent
(`none`) when the variable exists on only one side, because the loop in
`compare_variables` creates the entry and then hits `continue`. -/
structure VarEntry where
  atts_equal : Option Bool
  arrays_equal : Option Bool
deriving DecidableEq

/-- Result dict of `compare_variables` (netcdf.py lines 142-176). -/
structure VarDiff where
  prod_present_only : List String
  dev_present_only : List String
  var_content : List (String × VarEntry)
deriving DecidableEq

/-- Embedding of `compare_attributes(dev_ds, prod_ds)` (netcdf.py lines 86-111): the two
presence-only key lists, then for every shared key a `(k, prod, dev)` triple
whenever the values differ under Python `!=`. -/
def compare_attributes (dev_ds prod_ds : List (String × NCVal)) : AttDiff :=
  { dev_present_only := (keysOf dev_ds).filter (fun k => (lookupA prod_ds k).isNone)
    prod_present_only := (keysOf prod_ds).filter (fun k => (lookupA dev_ds k).isNone)
    global_att := dev_ds.filterMap (fun kv =>
      match lookupA prod_ds kv.1 with
      | none => none
      | some pv => if pyEq pv kv.2 then none else some (kv.1, pv, kv.2)) }

/-- Embedding of `compare_dimensions(dev_ds, prod_ds)` (netcdf.py lines 113-140): the two
presence-only key lists, then name and size mismatch triples for shared
keys.  The single Python loop appends to the two lists independently, so it
equals these two traversals. -/
def compare_dimensions (dev_ds prod_ds : List (String × Dim)) : DimDiff :=
  { dev_present_only := (keysOf dev_ds).filter (fun k => (lookupA prod_ds k).isNone)
    prod_present_only := (keysOf prod_ds).filter (fun k => (lookupA dev_ds k).isNone)
    names_not_equal := dev_ds.filterMap (fun kv =>
      match lookupA prod_ds kv.1 with
      | none => none
      | some pd => if pd.name = kv.2.name then none else some (kv.1, pd.name, kv.2.name))
    size_not_equal := dev_ds.filterMap (fun kv =>
      match lookupA prod_ds kv.1 with
      | none => none
      | some pd => if pd.size = kv.2.size then none else some (kv.1, pd.size, kv.2.size)) }

/-- The variable-attribute key comparison of netcdf.py line 169:
`reduce(lambda j, k: j and k, map(lambda i, j: i == j, dev_atts, prod_atts), True)`.
Python `map` over two iterables stops at the shorter one, which is exactly
`List.zipWith`; `reduce` with initial `True` is a left fold. -/
def atts_keys_equal (dev_atts prod_atts : List String) : Bool :=
  (List.zipWith (fun i j => i == j) dev_atts prod_atts).foldl (fun j k => j && k) true

/-- The variable-array comparison of netcdf.py lines 171-174: fill masked
elements with -9999 on both sides, then `np.array_equal(..., equal_nan=True)`. -/
def compare_var_arrays (dev_v prod_v : MaskedArray) : Bool :=
  array_equal (dev_v.filled (-9999)) (prod_v.filled (-9999))

/-- Embedding of `compare_variables(dev_ds, prod_ds)` (netcdf.py lines 142-176): the two
presence-only key lists, and a `var_content` entry for every development
variable; a variable missing from production keeps the empty entry created
just before the `continue`. -/
def compare_variables (dev_ds prod_ds : List (String × NCVar)) : VarDiff :=
  { dev_present_only := (keysOf dev_ds).filter (fun k => (lookupA prod_ds k).isNone)
    prod_present_only := (keysOf prod_ds).filter (fun k => (lookupA dev_ds k).isNone)
    var_content := dev_ds.map (fun kv =>
      (kv.1,
       match lookupA prod_ds kv.1 with
       | none => ⟨none, none⟩
       | some pv =>
          ⟨some (atts_keys_equal (keysOf kv.2.atts) (keysOf pv.atts)),
           some (compare_var_arrays kv.2.data pv.data)⟩)) }

/-- Embedding of `write_netcdf_dims(dim_dict, rf)` (netcdf.py lines 260-312): starts from
`equal = True` and clears it for each non-empty difference list; the report
text written along the way is elided. -/
def write_netcdf_dims (dim_dict : DimDiff) : Bool :=
  let equal := true
  let equal := if dim_dict.dev_present_only.length ≠ 0 then false else equal
  let equal := if dim_dict.prod_present_only.length ≠ 0 then false else equal
  let equal := if dim_dict.names_not_equal.length ≠ 0 then false else equal
  let equal := if dim_dict.size_not_equal.length ≠ 0 then false else equal
  equal

/-- Embedding of `write_netcdf_atts(att_dict, rf)` (netcdf.py lines 212-258).  The locals
`prod_date` and `test_date` start unassigned and are only bound inside the
`e[0] == "date_created"` branch of the loop over `global_att`; the final
`return equal, prod_date, test_date` raises `UnboundLocalError` when they
were never bound, modelled by `Except.error`.  The carve-out on line 254
sets `equal = True` when the lone value mismatch is `date_created`,
overriding the presence-only checks.  Report text elided. -/
def write_netcdf_atts (att_dict : AttDiff) :
    Except String (Bool × NCVal × NCVal) :=
  let equal := true
  let equal := if att_dict.dev_present_only.length ≠ 0 then false else equal
  let equal := if att_dict.prod_present_only.length ≠ 0 then false else equal
  if att_dict.global_att.length ≠ 0 then
    let final := att_dict.global_att.foldl
      (fun (acc : Bool × Option NCVal × Option NCVal) e =>
        if e.1 = "date_created" then
          (if att_dict.global_att.length = 1 then true else acc.1,
           some e.2.1, some e.2.2)
        else acc)
      (false, none, none)
    match final with
    | (eq, some prod_date, some test_date) => .ok (eq, prod_date, test_date)
    | _ => .error ("UnboundLocalError: prod_date")
  else
    -- `equal` is still the presence-only verdict here, but the return
    -- statement reads the never-assigned `prod_date` first.
    let _ := equal
    .error ("UnboundLocalError: prod_date")

/-- The body of the loop over `var_content` in `write_netcdf_var`
(netcdf.py lines 347-358): read the two booleans inside `try`; a missing
key raises `KeyError`, which is caught, sets `equal = False` and continues
with the next entry. -/
def var_entry_step (eq : Bool) (kv : String × VarEntry) : Bool :=
  match kv.2.atts_equal, kv.2.arrays_equal with
  | some atts_eq, some data_eq => if !atts_eq || !data_eq then false else eq
  | _, _ => false

/-- Embedding of `write_netcdf_var(var_dict, rf)` (netcdf.py lines 314-361).  Report
text elided. -/
def write_netcdf_var (var_dict : VarDiff) : Bool :=
  let equal := true
  let equal := if var_dict.dev_present_only.length ≠ 0 then false else equal
  let equal := if var_dict.prod_present_only.length ≠ 0 then false else equal
  var_dict.var_content.foldl var_entry_step equal

/-- The three sub-diffs stored per NetCDF file
(`dim_dict`, `att_dict`, `var_dict` in `compare_netcdfs_dl`). -/
structure DiffRecord where
  dim_dict : DimDiff
  att_dict : AttDiff
  var_dict : VarDiff
deriving DecidableEq

/-- One granule's row of `granule_data["granules"]`
(netcdf.py lines 191-197). -/
structure GranuleRecord where
  equal_dims : Bool
  equal_atts : Bool
  equal_vars : Bool
  ops_date : NCVal
  uat_date : NCVal
deriving DecidableEq

/-- The value returned by `write_netcdf_report`: the per-granule records and
the list of unequal files.  In the Python dict the `nc_not_equal` key is
added only when the list is non-empty, and a `report_file` name taken from
the caller-supplied path is attached; both are modelled by the plain list
(empty meaning absent) with the path elided. -/
structure GranuleData where
  granules : List (String × GranuleRecord)
  nc_not_equal : List String
deriving DecidableEq

/-- The body of the loop over `data_dict` in `write_netcdf_report`
(netcdf.py lines 185-198), processed recursively: an exception raised by
`write_netcdf_atts` for an earlier file propagates before any later file is
processed, exactly as in the Python loop. -/
def write_netcdf_report_loop :
    List (String × DiffRecord) →
    Except String (List (String × GranuleRecord) × List String)
  | [] => .ok ([], [])
  | kv :: rest => do
    let equal_dims := write_netcdf_dims kv.2.dim_dict
    let att ← write_netcdf_atts kv.2.att_dict
    let equal_vars := write_netcdf_var kv.2.var_dict
    let tail ← write_netcdf_report_loop rest
    .ok ((kv.1, ⟨equal_dims, att.1, equal_vars, att.2.1, att.2.2⟩) :: tail.1,
         if !equal_dims || !att.1 || !equal_vars then kv.1 :: tail.2 else tail.2)

/-- Embedding of `write_netcdf_report(data_dict, report_file, dataset)` (netcdf.py lines
178-210): per file, the three sub-verdicts plus the two extracted
`date_created` values, and the accumulated list of unequal files.  Report
text and the report-file path elided. -/
def write_netcdf_report (data_dict : List (String × DiffRecord)) :
    Except String GranuleData :=
  (write_netcdf_report_loop data_dict).map (fun r => ⟨r.1, r.2⟩)

/-- One persisted value of `timeline-{dataset}.json`, keyed by the run's
date string (write.py lines 400-415). -/
structure TimelineEntry where
  num_ops : Nat
  num_uat : Nat
  equality : Bool
  archive : String
deriving DecidableEq

/-- The persisted timeline store for one dataset identity: the JSON object
as an insertion-ordered map from date string to entry. -/
abbrev TimelineStore := List (String × TimelineEntry)

/-- Python dict assignment `d[k] = v`: overwrite in place when the key is
present, append at the end when it is new. -/
def insertEntry (store : TimelineStore) (k : String) (v : TimelineEntry) :
    TimelineStore :=
  if (lookupA store k).isSome then
    store.map (fun kv => (kv.1, if kv.1 = k then v else kv.2))
  else
    store ++ [(k, v)]

/-- The load step of `write_timeline_html` (write.py lines 317-320):
`OrderedDict(sorted(previous_data.items(), reverse=True))`, a stable sort of
the items by key, descending.  Modelled by insertion sort. -/
def insertDesc (p : String × TimelineEntry) :
    TimelineStore → TimelineStore
  | [] => [p]
  | q :: rest => if q.1 < p.1 then p :: q :: rest else q :: insertDesc p rest

/-- Sort a timeline store by key, descending (see `insertDesc`). -/
def sortDesc : TimelineStore → TimelineStore
  | [] => []
  | p :: rest => insertDesc p (sortDesc rest)

/-- The store mutation performed by `write_previous_timeline` (write.py
lines 375-394): every entry whose archive pointer is the `"Current"`
placeholder is redirected to the just-created archive file name.  The HTML
table rows formatted from the mutated dict are elided. -/
def write_previous_timeline (previous_data : TimelineStore)
    (archive_file : String) : TimelineStore :=
  previous_data.map (fun kv =>
    (kv.1, if kv.2.archive = "Current" then { kv.2 with archive := archive_file } else kv.2))

/-- Embedding of `write_timeline_json` (write.py lines 396-418): add (or overwrite) the
current run's entry, whose archive pointer is the `"Current"` placeholder
and whose equality flag is `len(nc_not_equal) == 0`, then dump the store. -/
def write_timeline_json (previous_data : TimelineStore) (date_str : String)
    (num_ops num_uat : Nat) (nc_not_equal : List String) : TimelineStore :=
  insertEntry previous_data date_str
    ⟨num_ops, num_uat, nc_not_equal.length == 0, "Current"⟩

/-- The first half of the read-modify-write cycle of `write_timeline_html`
(write.py lines 313-341): load and key-sort the persisted store, then, when
any previous data exists, redirect `"Current"` archive pointers to the new
archive file name (the `write_previous_timeline` call). -/
def timeline_rewrite_phase (store : TimelineStore) (archive_name : String) :
    TimelineStore :=
  let previous_data := sortDesc store
  if previous_data.isEmpty then previous_data
  else write_previous_timeline previous_data archive_name

/-- The full read-modify-write cycle one run performs on the timeline store
(`write_timeline_html`, write.py lines 309-357): the rewrite phase above,
then the append-or-update of the current run via `write_timeline_json`.
`archive_name` is `archive_file.name`, the file name of the artifact
`archive_html_report` just produced. -/
def timeline_run_step (store : TimelineStore) (archive_name date_str : String)
    (num_ops num_uat : Nat) (nc_not_equal : List String) : TimelineStore :=
  write_timeline_json (timeline_rewrite_phase store archive_name)
    date_str num_ops num_uat nc_not_equal

/-- Python `str.startswith`: the pattern's characters are a prefix of the
line's characters.  (Defined over the character lists so that it reduces
definitionally; `String.startsWith` itself is compiled from well-founded
recursion.) -/
def py_startswith (line pre : String) : Bool :=
  pre.toList.isPrefixOf line.toList

/-- The date-string extraction of write.py line 279:
`line.split("<h1>")[-1].split(' ')[0]`. -/
def parse_h1_date (line : String) : String :=
  (((line.splitOn ("<h1>")).getLastD ("")).splitOn (" ")).headD ("")

/-- The loop of write.py lines 277-279: scan the previous report's lines and
remember the parse of the last line starting with `<h1>`; `none` when no
such marker line exists, in which case `date_str` stays unassigned. -/
def recover_date_str (lines : List String) : Option String :=
  lines.foldl
    (fun acc line =>
      if py_startswith line ("<h1>") then some (parse_h1_date line) else acc)
    none

/-- Embedding of `archive_html_report(html_dir, dataset, logger)` (write.py lines
268-293), modelled on the file name level: when a previous index file
exists, its recovered date string names the archive file
`{date_str}-{dataset}.html`; reading `date_str` raises `NameError` when no
marker line was found.  Returns the archive file name (`""` when there was
nothing to rotate); the moves/renames themselves are elided filesystem
effects. -/
def archive_html_report (previous_index_exists : Bool)
    (previous_lines : List String) (dataset : String) :
    Except String String :=
  if previous_index_exists then
    match recover_date_str previous_lines with
    | some date_str => .ok (date_str ++ "-" ++ dataset ++ ".html")
    | none => .error ("NameError: date_str")
  else
    .ok ("")

/-- One run's inputs to the timeline cycle, for iterating
`timeline_run_step`. -/
structure RunInput where
  archive_name : String
  date_str : String
  num_ops : Nat
  num_uat : Nat
  nc_not_equal : List String
deriving DecidableEq

/-- Iterate the per-run timeline read-modify-write cycle over a sequence of
runs. -/
def run_steps (runs : List RunInput) (init : TimelineStore) : TimelineStore :=
  runs.foldl
    (fun s r => timeline_run_step s r.archive_name r.date_str r.num_ops r.num_uat r.nc_not_equal)
    init

/-- The timeline entry a run writes, with a given archive pointer. -/
def run_entry (r : RunInput) (arch : String) : TimelineEntry :=
  ⟨r.num_ops, r.num_uat, r.nc_not_equal.length == 0, arch⟩

/-- An array in which every masked value has already been resubstituted by
the fill sentinel: same shape, the filled data, and an all-false mask.  This
is the `A_with_masked_values_resubstituted` of the specification's array
property. -/
def resubstitute_masked (a : MaskedArray) : MaskedArray :=
  ⟨a.shape, (a.filled (-9999)).data,
   List.replicate (a.filled (-9999)).data.length false⟩

/- ### Shared helper lemmas -/

theorem foldl_and_eq (l : List Bool) (b : Bool) :
    l.foldl (fun j k => j && k) b = (b && l.all (fun x => x)) := by
  induction l generalizing b with
  | nil => simp
  | cons x xs ih => simp [List.foldl_cons, ih (b && x), Bool.and_assoc]

theorem eqNan_eq_true_iff (a b : NCVal) : eqNan a b = true ↔ a = b := by
  cases a <;> cases b <;> simp [eqNan, pyEq, NCVal.isNaN]

theorem zipWith_eqNan_all_iff (xs ys : List NCVal) (h : xs.length = ys.length) :
    ((List.zipWith eqNan xs ys).all (fun x => x) = true) ↔ xs = ys := by
  induction xs generalizing ys with
  | nil =>
    cases ys with
    | nil => simp
    | cons y ys => simp at h
  | cons x xs ih =>
    cases ys with
    | nil => simp at h
    | cons y ys =>
      simp only [List.zipWith_cons_cons, List.all_cons, Bool.and_eq_true,
        eqNan_eq_true_iff, List.cons.injEq]
      exact and_congr Iff.rfl (ih ys (by simpa using h))

theorem array_equal_iff (a b : NPArray) :
    array_equal a b = true ↔ a.shape = b.shape ∧ a.data = b.data := by
  unfold array_equal
  simp only [Bool.and_eq_true, beq_iff_eq]
  constructor
  · rintro ⟨⟨hs, hl⟩, hall⟩
    exact ⟨hs, (zipWith_eqNan_all_iff _ _ hl).mp hall⟩
  · rintro ⟨hs, hd⟩
    refine ⟨⟨hs, by rw [hd]⟩, (zipWith_eqNan_all_iff _ _ (by rw [hd])).mpr hd⟩

theorem zipWith_fill_replicate_false (l : List NCVal) :
    List.zipWith (fun v m => if m then NCVal.int (-9999) else v) l
      (List.replicate l.length false) = l := by
  induction l with
  | nil => rfl
  | cons x xs ih => simp [List.replicate_succ, ih]

theorem filled_resubstitute (a : MaskedArray) :
    (resubstitute_masked a).filled (-9999) = a.filled (-9999) := by
  unfold resubstitute_masked MaskedArray.filled
  simpa using zipWith_fill_replicate_false
    (List.zipWith (fun v m => if m then NCVal.int (-9999) else v) a.data a.mask)

theorem atts_keys_all_iff (xs ys : List String) :
    ((List.zipWith (fun i j => i == j) xs ys).all (fun x => x) = true) ↔
      ∀ i (h1 : i < xs.length) (h2 : i < ys.length), xs.get ⟨i, h1⟩ = ys.get ⟨i, h2⟩ := by
  induction xs generalizing ys with
  | nil => simp
  | cons x xs ih =>
    cases ys with
    | nil => simp
    | cons y ys =>
      simp only [List.zipWith_cons_cons, List.all_cons, Bool.and_eq_true, beq_iff_eq]
      constructor
      · rintro ⟨hxy, hall⟩ i h1 h2
        cases i with
        | zero => simpa using hxy
        | succ n =>
          exact (ih ys).mp hall n (Nat.lt_of_succ_lt_succ h1) (Nat.lt_of_succ_lt_succ h2)
      · intro h
        refine ⟨h 0 (by simp) (by simp), (ih ys).mpr ?_⟩
        intro i h1 h2
        exact h (i + 1) (Nat.succ_lt_succ h1) (Nat.succ_lt_succ h2)

theorem atts_keys_equal_iff (xs ys : List String) :
    atts_keys_equal xs ys = true ↔
      ∀ i (h1 : i < xs.length) (h2 : i < ys.length), xs.get ⟨i, h1⟩ = ys.get ⟨i, h2⟩ := by
  unfold atts_keys_equal
  rw [foldl_and_eq, Bool.true_and]
  exact atts_keys_all_iff xs ys

theorem var_entry_step_false (kv : String × VarEntry) :
    var_entry_step false kv = false := by
  unfold var_entry_step
  rcases kv with ⟨k, ⟨a, d⟩⟩
  cases a <;> cases d <;> simp

theorem var_entry_fold_true_iff (l : List (String × VarEntry)) (b : Bool) :
    l.foldl var_entry_step b = true ↔
      b = true ∧ ∀ kv ∈ l, kv.2.atts_equal = some true ∧ kv.2.arrays_equal = some true := by
  induction l generalizing b with
  | nil => simp
  | cons kv rest ih =>
    rw [List.foldl_cons, ih]
    rcases kv with ⟨k, ⟨a, d⟩⟩
    cases a with
    | none => simp [var_entry_step]
    | some a =>
      cases d with
      | none => simp [var_entry_step]
      | some d => cases a <;> cases d <;> cases b <;> simp [var_entry_step]

theorem NCVal.isNaN_iff (v : NCVal) : v.isNaN = true ↔ v = .nan := by
  cases v <;> simp [NCVal.isNaN]

theorem lookupA_some_mem {α : Type} {l : List (String × α)} {k : String} {v : α}
    (h : lookupA l k = some v) : (k, v) ∈ l := by
  induction l with
  | nil => simp [lookupA] at h
  | cons p rest ih =>
    rcases p with ⟨k0, v0⟩
    by_cases hk : k0 = k
    · subst hk
      simp [lookupA] at h
      subst h
      exact List.mem_cons_self _ _
    · simp [lookupA, hk] at h
      exact List.mem_cons_of_mem _ (ih h)

theorem mem_lookupA_of_nodup {α : Type} {l : List (String × α)} {k : String} {v : α}
    (hnd : NodupKeys l) (h : (k, v) ∈ l) : lookupA l k = some v := by
  induction l with
  | nil => simp at h
  | cons p rest ih =>
    rcases p with ⟨k0, v0⟩
    have hcons : k0 ∉ keysOf rest ∧ (keysOf rest).Nodup := List.nodup_cons.mp hnd
    rcases List.mem_cons.mp h with heq | hmem
    · injection heq with hk hv
      subst hk
      subst hv
      simp [lookupA]
    · have hkne : k0 ≠ k := by
        intro he
        subst he
        exact hcons.1 (List.mem_map_of_mem Prod.fst hmem)
      simp only [lookupA, if_neg hkne]
      exact ih hcons.2 hmem

theorem lookupA_none_iff {α : Type} (l : List (String × α)) (k : String) :
    lookupA l k = none ↔ k ∉ keysOf l := by
  induction l with
  | nil => simp [lookupA, keysOf]
  | cons p rest ih =>
    rcases p with ⟨k0, v0⟩
    by_cases hk : k0 = k
    · subst hk
      simp [lookupA, keysOf]
    · simp [lookupA, hk, keysOf] at ih ⊢
      exact ⟨fun h => ⟨fun he => hk he.symm, ih.mp h⟩, fun h => ih.mpr h.2⟩

theorem lookupA_isSome_iff {α : Type} (l : List (String × α)) (k : String) :
    (lookupA l k).isSome = true ↔ k ∈ keysOf l := by
  cases h : lookupA l k with
  | none => simpa using (lookupA_none_iff l k).mp h
  | some v =>
    simp only [Option.isSome_some, true_iff]
    exact List.mem_map_of_mem Prod.fst (lookupA_some_mem h)

theorem nodupKeys_of_perm {α : Type} {l l' : List (String × α)}
    (hp : l.Perm l') (hnd : NodupKeys l) : NodupKeys l' :=
  ((hp.map Prod.fst).nodup_iff).mp hnd

theorem lookupA_eq_of_perm {α : Type} {l l' : List (String × α)}
    (hp : l.Perm l') (hnd : NodupKeys l) (k : String) :
    lookupA l k = lookupA l' k := by
  cases h : lookupA l k with
  | none =>
    have hk : k ∉ keysOf l := (lookupA_none_iff l k).mp h
    have hk' : k ∉ keysOf l' := fun hmem =>
      hk ((hp.map Prod.fst).mem_iff.mpr hmem)
    exact ((lookupA_none_iff l' k).mpr hk').symm
  | some v =>
    exact (mem_lookupA_of_nodup (nodupKeys_of_perm hp hnd)
      (hp.mem_iff.mp (lookupA_some_mem h))).symm

theorem lookupA_map_val {α β : Type} (l : List (String × α)) (f : String → α → β)
    (k : String) :
    lookupA (l.map fun kv => (kv.1, f kv.1 kv.2)) k = (lookupA l k).map (f k) := by
  induction l with
  | nil => rfl
  | cons p rest ih =>
    rcases p with ⟨k0, v0⟩
    by_cases hk : k0 = k
    · subst hk
      simp [lookupA]
    · simp only [List.map_cons, lookupA, if_neg hk]
      exact ih

theorem lookupA_append {α : Type} (l l' : List (String × α)) (k : String) :
    lookupA (l ++ l') k =
      match lookupA l k with
      | some v => some v
      | none => lookupA l' k := by
  induction l with
  | nil => rfl
  | cons p rest ih =>
    rcases p with ⟨k0, v0⟩
    by_cases hk : k0 = k
    · subst hk
      simp [lookupA]
    · simp only [List.cons_append, lookupA, if_neg hk]
      exact ih

theorem beq_comm_str (a b : String) : (a == b) = (b == a) := by
  apply Bool.eq_iff_iff.mpr
  simp only [beq_iff_eq]
  exact eq_comm

theorem pyEq_symm (a b : NCVal) : pyEq a b = pyEq b a := by
  cases a <;> cases b <;> simp only [pyEq] <;>
    (apply Bool.eq_iff_iff.mpr; simp only [beq_iff_eq]; exact eq_comm)

theorem atts_keys_equal_symm (xs ys : List String) :
    atts_keys_equal xs ys = atts_keys_equal ys xs := by
  unfold atts_keys_equal
  rw [foldl_and_eq, foldl_and_eq]
  have hz : List.zipWith (fun i j : String => i == j) xs ys =
      List.zipWith (fun i j : String => i == j) ys xs := by
    rw [List.zipWith_comm (fun i j => i == j)]
    have hf : (fun (b a : String) => a == b) = (fun i j : String => i == j) := by
      funext b a
      exact beq_comm_str a b
    rw [hf]
  rw [hz]

theorem eqNan_symm (a b : NCVal) : eqNan a b = eqNan b a := by
  unfold eqNan
  rw [pyEq_symm, Bool.and_comm]

theorem array_equal_symm (a b : NPArray) : array_equal a b = array_equal b a := by
  apply Bool.eq_iff_iff.mpr
  rw [array_equal_iff, array_equal_iff]
  exact ⟨fun h => ⟨h.1.symm, h.2.symm⟩, fun h => ⟨h.1.symm, h.2.symm⟩⟩

theorem compare_var_arrays_symm (a b : MaskedArray) :
    compare_var_arrays a b = compare_var_arrays b a := by
  unfold compare_var_arrays
  exact array_equal_symm _ _

/-- Membership in the `global_att` mismatch list of `compare_attributes`,
characterized by the two dict lookups, for a development dict without
duplicate keys. -/
theorem global_att_mem_iff (dev prod : List (String × NCVal))
    (hnd : NodupKeys dev) (k : String) (x y : NCVal) :
    (k, x, y) ∈ (compare_attributes dev prod).global_att ↔
      lookupA dev k = some y ∧ lookupA prod k = some x ∧ pyEq x y = false := by
  unfold compare_attributes
  simp only [List.mem_filterMap]
  constructor
  · rintro ⟨⟨a, b⟩, hmem, hf⟩
    cases hp : lookupA prod a with
    | none => rw [hp] at hf; simp at hf
    | some pv =>
      rw [hp] at hf
      by_cases hq : pyEq pv b = true
      · simp [hq] at hf
      · simp only [if_neg hq, Option.some.injEq, Prod.mk.injEq] at hf
        obtain ⟨ha, hx, hy⟩ := hf
        subst ha
        subst hx
        subst hy
        exact ⟨mem_lookupA_of_nodup hnd hmem, hp, Bool.not_eq_true _ ▸ hq⟩
  · rintro ⟨hd, hp, hq⟩
    refine ⟨(k, y), lookupA_some_mem hd, ?_⟩
    rw [hp]
    simp [hq]

/-- Membership in the `names_not_equal` list of `compare_dimensions`. -/
theorem names_not_equal_mem_iff (dev prod : List (String × Dim))
    (hnd : NodupKeys dev) (k : String) (x y : String) :
    (k, x, y) ∈ (compare_dimensions dev prod).names_not_equal ↔
      ∃ dd pd, lookupA dev k = some dd ∧ lookupA prod k = some pd ∧
        pd.name = x ∧ dd.name = y ∧ x ≠ y := by
  unfold compare_dimensions
  simp only [List.mem_filterMap]
  constructor
  · rintro ⟨⟨a, b⟩, hmem, hf⟩
    cases hp : lookupA prod a with
    | none => rw [hp] at hf; simp at hf
    | some pd =>
      rw [hp] at hf
      by_cases hq : pd.name = b.name
      · simp [hq] at hf
      · simp only [if_neg hq, Option.some.injEq, Prod.mk.injEq] at hf
        obtain ⟨ha, hx, hy⟩ := hf
        subst ha
        subst hx
        subst hy
        exact ⟨b, pd, mem_lookupA_of_nodup hnd hmem, hp, rfl, rfl, hq⟩
  · rintro ⟨dd, pd, hd, hp, hx, hy, hne⟩
    refine ⟨(k, dd), lookupA_some_mem hd, ?_⟩
    rw [hp]
    simp [hx, hy, hne]

/-- Membership in the `size_not_equal` list of `compare_dimensions`. -/
theorem size_not_equal_mem_iff (dev prod : List (String × Dim))
    (hnd : NodupKeys dev) (k : String) (x y : Nat) :
    (k, x, y) ∈ (compare_dimensions dev prod).size_not_equal ↔
      ∃ dd pd, lookupA dev k = some dd ∧ lookupA prod k = some pd ∧
        pd.size = x ∧ dd.size = y ∧ x ≠ y := by
  unfold compare_dimensions
  simp only [List.mem_filterMap]
  constructor
  · rintro ⟨⟨a, b⟩, hmem, hf⟩
    cases hp : lookupA prod a with
    | none => rw [hp] at hf; simp at hf
    | some pd =>
      rw [hp] at hf
      by_cases hq : pd.size = b.size
      · simp [hq] at hf
      · simp only [if_neg hq, Option.some.injEq, Prod.mk.injEq] at hf
        obtain ⟨ha, hx, hy⟩ := hf
        subst ha
        subst hx
        subst hy
        exact ⟨b, pd, mem_lookupA_of_nodup hnd hmem, hp, rfl, rfl, hq⟩
  · rintro ⟨dd, pd, hd, hp, hx, hy, hne⟩
    refine ⟨(k, dd), lookupA_some_mem hd, ?_⟩
    rw [hp]
    simp [hx, hy, hne]

/-- Lookup into the `var_content` map of `compare_variables`: the entry for
a development variable name, when present, is computed from the production
lookup. -/
theorem var_content_lookup (dev prod : List (String × NCVar)) (k : String) :
    lookupA (compare_variables dev prod).var_content k =
      (lookupA dev k).map (fun v =>
        match lookupA prod k with
        | none => (⟨none, none⟩ : VarEntry)
        | some pv =>
            ⟨some (atts_keys_equal (keysOf v.atts) (keysOf pv.atts)),
             some (compare_var_arrays v.data pv.data)⟩) := by
  unfold compare_variables
  simp only []
  induction dev with
  | nil => rfl
  | cons p rest ih =>
    rcases p with ⟨k0, v0⟩
    by_cases hk : k0 = k
    · subst hk
      simp [lookupA]
    · simp only [List.map_cons, lookupA, if_neg hk]
      exact ih

theorem keysOf_map_val {α β : Type} (l : List (String × α)) (f : String → α → β) :
    keysOf (l.map fun kv => (kv.1, f kv.1 kv.2)) = keysOf l := by
  simp [keysOf, List.map_map, Function.comp]

theorem insertDesc_perm (p : String × TimelineEntry) (l : TimelineStore) :
    (insertDesc p l).Perm (p :: l) := by
  induction l with
  | nil => exact List.Perm.refl _
  | cons q rest ih =>
    unfold insertDesc
    by_cases h : q.1 < p.1
    · rw [if_pos h]
    · rw [if_neg h]
      exact (ih.cons q).trans (List.Perm.swap p q rest)

theorem sortDesc_perm (l : TimelineStore) : (sortDesc l).Perm l := by
  induction l with
  | nil => exact List.Perm.refl _
  | cons p rest ih => exact (insertDesc_perm p (sortDesc rest)).trans (ih.cons p)

theorem insertEntry_lookup_self (s : TimelineStore) (k : String) (v : TimelineEntry) :
    lookupA (insertEntry s k v) k = some v := by
  unfold insertEntry
  by_cases h : (lookupA s k).isSome
  · rw [if_pos h, lookupA_map_val s (fun a b => if a = k then v else b) k]
    obtain ⟨w, hw⟩ := Option.isSome_iff_exists.mp h
    rw [hw]
    simp
  · rw [if_neg h, lookupA_append]
    rw [Option.not_isSome_iff_eq_none.mp h]
    simp [lookupA]

theorem insertEntry_lookup_other (s : TimelineStore) (k : String) (v : TimelineEntry)
    (k' : String) (h : k' ≠ k) :
    lookupA (insertEntry s k v) k' = lookupA s k' := by
  unfold insertEntry
  by_cases hs : (lookupA s k).isSome
  · rw [if_pos hs, lookupA_map_val s (fun a b => if a = k then v else b) k']
    cases hk' : lookupA s k' with
    | none => rfl
    | some w =>
      simp only [Option.map_some']
      rw [if_neg h]
  · rw [if_neg hs, lookupA_append]
    cases hk' : lookupA s k' with
    | none => simp [lookupA, Ne.symm h]
    | some w => rfl

theorem insertEntry_length (s : TimelineStore) (k : String) (v : TimelineEntry) :
    (insertEntry s k v).length =
      if (lookupA s k).isSome then s.length else s.length + 1 := by
  unfold insertEntry
  by_cases h : (lookupA s k).isSome
  · rw [if_pos h, if_pos h, List.length_map]
  · rw [if_neg h, if_neg h, List.length_append]
    rfl

theorem write_previous_timeline_lookup (s : TimelineStore) (a : String) (k : String) :
    lookupA (write_previous_timeline s a) k =
      (lookupA s k).map
        (fun e => if e.archive = "Current" then { e with archive := a } else e) := by
  unfold write_previous_timeline
  exact lookupA_map_val s
    (fun _ e => if e.archive = "Current" then { e with archive := a } else e) k

theorem timeline_rewrite_phase_lookup (store : TimelineStore) (a : String)
    (hnd : NodupKeys store) (k : String) :
    lookupA (timeline_rewrite_phase store a) k =
      (lookupA store k).map
        (fun e => if e.archive = "Current" then { e with archive := a } else e) := by
  show lookupA
      (if (sortDesc store).isEmpty then sortDesc store
       else write_previous_timeline (sortDesc store) a) k = _
  have hsp : lookupA (sortDesc store) k = lookupA store k :=
    (lookupA_eq_of_perm (sortDesc_perm store).symm hnd k).symm
  by_cases he : (sortDesc store).isEmpty
  · rw [if_pos he]
    have hnil : sortDesc store = [] := List.isEmpty_iff.mp he
    have hstore : store = [] := ((hnil ▸ sortDesc_perm store).symm).eq_nil
    rw [hnil, hstore]
    rfl
  · rw [if_neg he, write_previous_timeline_lookup, hsp]

theorem timeline_rewrite_phase_length (store : TimelineStore) (a : String) :
    (timeline_rewrite_phase store a).length = store.length := by
  show (if (sortDesc store).isEmpty then sortDesc store
       else write_previous_timeline (sortDesc store) a).length = _
  by_cases he : (sortDesc store).isEmpty
  · rw [if_pos he, (sortDesc_perm store).length_eq]
  · rw [if_neg he]
    unfold write_previous_timeline
    rw [List.length_map, (sortDesc_perm store).length_eq]

theorem timeline_rewrite_phase_keys (store : TimelineStore) (a : String) :
    (keysOf (timeline_rewrite_phase store a)).Perm (keysOf store) := by
  show (keysOf (if (sortDesc store).isEmpty then sortDesc store
       else write_previous_timeline (sortDesc store) a)).Perm _
  by_cases he : (sortDesc store).isEmpty
  · rw [if_pos he]
    exact (sortDesc_perm store).map Prod.fst
  · rw [if_neg he]
    unfold write_previous_timeline
    rw [keysOf_map_val (sortDesc store)
      (fun _ e => if e.archive = "Current" then { e with archive := a } else e)]
    exact (sortDesc_perm store).map Prod.fst

theorem timeline_run_step_lookup_new (store : TimelineStore) (a ts : String)
    (n u : Nat) (ne : List String) :
    lookupA (timeline_run_step store a ts n u ne) ts =
      some ⟨n, u, ne.length == 0, "Current"⟩ := by
  unfold timeline_run_step write_timeline_json
  exact insertEntry_lookup_self _ _ _

theorem timeline_run_step_lookup_old (store : TimelineStore) (a ts : String)
    (n u : Nat) (ne : List String) (k : String) (hnd : NodupKeys store)
    (hk : k ≠ ts) :
    lookupA (timeline_run_step store a ts n u ne) k =
      (lookupA store k).map
        (fun e => if e.archive = "Current" then { e with archive := a } else e) := by
  unfold timeline_run_step write_timeline_json
  rw [insertEntry_lookup_other _ _ _ _ hk]
  exact timeline_rewrite_phase_lookup store a hnd k

theorem timeline_run_step_keys (store : TimelineStore) (a ts : String)
    (n u : Nat) (ne : List String) (hnd : NodupKeys store)
    (hfresh : lookupA store ts = none) :
    (keysOf (timeline_run_step store a ts n u ne)).Perm (keysOf store ++ [ts]) := by
  unfold timeline_run_step write_timeline_json insertEntry
  have hps : lookupA (timeline_rewrite_phase store a) ts = none := by
    rw [timeline_rewrite_phase_lookup store a hnd ts, hfresh]
    rfl
  rw [if_neg (by rw [hps]; simp)]
  rw [keysOf, List.map_append]
  exact (timeline_rewrite_phase_keys store a).append_right _

theorem timeline_run_step_nodup (store : TimelineStore) (a ts : String)
    (n u : Nat) (ne : List String) (hnd : NodupKeys store)
    (hfresh : lookupA store ts = none) :
    NodupKeys (timeline_run_step store a ts n u ne) := by
  apply ((timeline_run_step_keys store a ts n u ne hnd hfresh).nodup_iff).mpr
  rw [List.nodup_append]
  refine ⟨hnd, List.nodup_singleton ts, ?_⟩
  intro x hx hx'
  rw [List.mem_singleton] at hx'
  subst hx'
  exact (lookupA_none_iff store x).mp hfresh hx

theorem timeline_run_step_length_present (store : TimelineStore) (a ts : String)
    (n u : Nat) (ne : List String) (hnd : NodupKeys store)
    (hsome : (lookupA store ts).isSome = true) :
    (timeline_run_step store a ts n u ne).length = store.length := by
  unfold timeline_run_step write_timeline_json
  have hps : (lookupA (timeline_rewrite_phase store a) ts).isSome = true := by
    rw [timeline_rewrite_phase_lookup store a hnd ts]
    obtain ⟨w, hw⟩ := Option.isSome_iff_exists.mp hsome
    rw [hw]
    rfl
  rw [insertEntry_length, if_pos hps, timeline_rewrite_phase_length]

theorem timeline_run_step_length_fresh (store : TimelineStore) (a ts : String)
    (n u : Nat) (ne : List String) (hnd : NodupKeys store)
    (hfresh : lookupA store ts = none) :
    (timeline_run_step store a ts n u ne).length = store.length + 1 := by
  unfold timeline_run_step write_timeline_json
  have hps : lookupA (timeline_rewrite_phase store a) ts = none := by
    rw [timeline_rewrite_phase_lookup store a hnd ts, hfresh]
    rfl
  rw [insertEntry_length, if_neg (by rw [hps]; simp), timeline_rewrite_phase_length]

/- ### Claim theorems -/

/-- C1 (code bug): for a mapping of diff records whose attribute diff holds
no value mismatch named `date_created` — here the all-empty diff produced by
comparing a dataset with itself — `write_netcdf_report` does not return the
verdicts and timestamp values: `write_netcdf_atts` reads the never-assigned
local `prod_date` at its `return` statement and raises `UnboundLocalError`,
which propagates out of `write_netcdf_report`. -/
theorem c1_identical_datasets_report_raises :
    write_netcdf_report
        [("20240101120000.nc",
          ⟨compare_dimensions [("time", ⟨"time", 10⟩)] [("time", ⟨"time", 10⟩)],
           compare_attributes [("title", NCVal.str ("x"))] [("title", NCVal.str ("x"))],
           compare_variables [] []⟩)] =
      .error ("UnboundLocalError: prod_date") := by
  rfl

/-- C2: for a dataset pair whose diff is empty everywhere except that the
global-attribute mismatch list holds exactly one entry named
`date_created`, the per-dataset verdict is equal: all three sub-verdicts
are true, the two timestamp values are extracted, and the file is not
listed among the unequal files. -/
theorem c2_only_date_created_differs_verdict_equal (name : String) (p t : NCVal) :
    write_netcdf_report
        [(name, ⟨⟨[], [], [], []⟩, ⟨[], [], [("date_created", p, t)]⟩, ⟨[], [], []⟩⟩)] =
      .ok ⟨[(name, ⟨true, true, true, p, t⟩)], []⟩ := by
  rfl

/-- C3 (counterexample): the claim demands `atts_equal = false` whenever one
side has fewer attribute keys, but the truncating two-iterable `map` of
netcdf.py line 169 returns `True` for a strict prefix. -/
theorem c3_truncated_prefix_counterexample :
    atts_keys_equal ["a"] ["a", "b"] = true ∧ (["a"] : List String) ≠ ["a", "b"] := by
  decide

/-- C3 (amended): `atts_equal` is true iff the two key sequences agree at
every position both of them have — a truncated positional comparison.  When
the lengths are equal this coincides with sequence equality (so reordering
one side alone is reported unequal), but a side with fewer keys matching a
prefix of the other yields true rather than false. -/
theorem c3_atts_positional_truncated (dev_atts prod_atts : List String) :
    (atts_keys_equal dev_atts prod_atts = true ↔
      ∀ i (h1 : i < dev_atts.length) (h2 : i < prod_atts.length),
        dev_atts.get ⟨i, h1⟩ = prod_atts.get ⟨i, h2⟩) ∧
    (dev_atts.length = prod_atts.length →
      (atts_keys_equal dev_atts prod_atts = true ↔ dev_atts = prod_atts)) := by
  refine ⟨atts_keys_equal_iff _ _, fun hlen => ?_⟩
  rw [atts_keys_equal_iff]
  constructor
  · intro h
    exact List.ext_get hlen h
  · intro h
    subst h
    intro i h1 h2
    rfl

/-- C3 witness: the amended theorem applied at a concrete equal-length
input, discharging the length hypothesis. -/
theorem c3_atts_positional_truncated_witness :
    atts_keys_equal ["units", "scale"] ["units", "scale"] = true :=
  ((c3_atts_positional_truncated ["units", "scale"] ["units", "scale"]).2 rfl).mpr rfl

/-- C4 (counterexample): the claim asserts that swapping the reference and
candidate arguments leaves the value-mismatch triples unchanged, but
`compare_attributes` records each mismatch as `(name, prod_value,
dev_value)`, so the swap exchanges the two value components. -/
theorem c4_swap_changes_triples_counterexample :
    (compare_attributes [("a", NCVal.int 2)] [("a", NCVal.int 1)]).global_att ≠
      (compare_attributes [("a", NCVal.int 1)] [("a", NCVal.int 2)]).global_att := by
  decide

/-- C4 (amended): swapping the reference and candidate handles swaps the
`reference_only` and `candidate_only` presence lists exactly, for
dimensions, global attributes and variables alike; every value-mismatch
triple of the swapped diff is the original triple with its two value
components exchanged (as membership, since the triples are emitted in the
iterated side's key order); and for every shared variable the per-variable
booleans are unchanged. -/
theorem c4_swap_reference_candidate (dA pA : List (String × NCVal))
    (dD pD : List (String × Dim)) (dV pV : List (String × NCVar))
    (hdA : NodupKeys dA) (hpA : NodupKeys pA)
    (hdD : NodupKeys dD) (hpD : NodupKeys pD) :
    (compare_attributes pA dA).dev_present_only =
        (compare_attributes dA pA).prod_present_only ∧
    (compare_attributes pA dA).prod_present_only =
        (compare_attributes dA pA).dev_present_only ∧
    (∀ k x y, (k, x, y) ∈ (compare_attributes pA dA).global_att ↔
        (k, y, x) ∈ (compare_attributes dA pA).global_att) ∧
    (compare_dimensions pD dD).dev_present_only =
        (compare_dimensions dD pD).prod_present_only ∧
    (compare_dimensions pD dD).prod_present_only =
        (compare_dimensions dD pD).dev_present_only ∧
    (∀ k x y, (k, x, y) ∈ (compare_dimensions pD dD).names_not_equal ↔
        (k, y, x) ∈ (compare_dimensions dD pD).names_not_equal) ∧
    (∀ k x y, (k, x, y) ∈ (compare_dimensions pD dD).size_not_equal ↔
        (k, y, x) ∈ (compare_dimensions dD pD).size_not_equal) ∧
    (compare_variables pV dV).dev_present_only =
        (compare_variables dV pV).prod_present_only ∧
    (compare_variables pV dV).prod_present_only =
        (compare_variables dV pV).dev_present_only ∧
    (∀ k, (lookupA dV k).isSome = true → (lookupA pV k).isSome = true →
        lookupA (compare_variables pV dV).var_content k =
          lookupA (compare_variables dV pV).var_content k) := by
  refine ⟨rfl, rfl, ?_, rfl, rfl, ?_, ?_, rfl, rfl, ?_⟩
  · intro k x y
    rw [global_att_mem_iff pA dA hpA, global_att_mem_iff dA pA hdA]
    constructor
    · rintro ⟨h1, h2, h3⟩
      exact ⟨h2, h1, by rw [← pyEq_symm]; exact h3⟩
    · rintro ⟨h1, h2, h3⟩
      exact ⟨h2, h1, by rw [pyEq_symm]; exact h3⟩
  · intro k x y
    rw [names_not_equal_mem_iff pD dD hpD, names_not_equal_mem_iff dD pD hdD]
    constructor
    · rintro ⟨dd, pd, h1, h2, h3, h4, h5⟩
      exact ⟨pd, dd, h2, h1, h4, h3, h5.symm⟩
    · rintro ⟨dd, pd, h1, h2, h3, h4, h5⟩
      exact ⟨pd, dd, h2, h1, h4, h3, h5.symm⟩
  · intro k x y
    rw [size_not_equal_mem_iff pD dD hpD, size_not_equal_mem_iff dD pD hdD]
    constructor
    · rintro ⟨dd, pd, h1, h2, h3, h4, h5⟩
      exact ⟨pd, dd, h2, h1, h4, h3, h5.symm⟩
    · rintro ⟨dd, pd, h1, h2, h3, h4, h5⟩
      exact ⟨pd, dd, h2, h1, h4, h3, h5.symm⟩
  · intro k h1 h2
    rw [var_content_lookup pV dV k, var_content_lookup dV pV k]
    obtain ⟨dv, hdv⟩ := Option.isSome_iff_exists.mp h1
    obtain ⟨pv, hpv⟩ := Option.isSome_iff_exists.mp h2
    rw [hdv, hpv]
    simp only [Option.map_some']
    rw [atts_keys_equal_symm (keysOf pv.atts) (keysOf dv.atts)]
    rw [compare_var_arrays_symm pv.data dv.data]

/-- C4 witness: the amended theorem applied at concrete dicts, discharging
the four duplicate-free-keys hypotheses. -/
theorem c4_swap_reference_candidate_witness :
    (compare_attributes [("extra", NCVal.int 1)] []).dev_present_only =
      (compare_attributes ([] : List (String × NCVal))
        [("extra", NCVal.int 1)]).prod_present_only :=
  (c4_swap_reference_candidate [] [("extra", NCVal.int 1)] [] [] [] []
    (by decide) (by decide) (by decide) (by decide)).1

/-- C5: after filling masked elements with the sentinel -9999 on both
sides, `arrays_equal` is true iff the filled arrays have identical shapes
and are element-wise equal under the rule that NaN equals NaN; comparing an
array with itself, or with itself after masked values are resubstituted,
yields true, and any shape mismatch yields false. -/
theorem c5_arrays_equal_fill_nan_spec (a b : MaskedArray) :
    (compare_var_arrays a b = true ↔
        (a.filled (-9999)).shape = (b.filled (-9999)).shape ∧
        (a.filled (-9999)).data.length = (b.filled (-9999)).data.length ∧
        ∀ i (h1 : i < (a.filled (-9999)).data.length)
            (h2 : i < (b.filled (-9999)).data.length),
          (a.filled (-9999)).data.get ⟨i, h1⟩ = (b.filled (-9999)).data.get ⟨i, h2⟩ ∨
            (((a.filled (-9999)).data.get ⟨i, h1⟩).isNaN = true ∧
              ((b.filled (-9999)).data.get ⟨i, h2⟩).isNaN = true)) ∧
    compare_var_arrays a a = true ∧
    compare_var_arrays a (resubstitute_masked a) = true ∧
    ((a.filled (-9999)).shape ≠ (b.filled (-9999)).shape →
      compare_var_arrays a b = false) := by
  have hiff : ∀ x y : MaskedArray,
      compare_var_arrays x y = true ↔
        (x.filled (-9999)).shape = (y.filled (-9999)).shape ∧
        (x.filled (-9999)).data = (y.filled (-9999)).data := by
    intro x y
    unfold compare_var_arrays
    exact array_equal_iff _ _
  refine ⟨?_, ?_, ?_, ?_⟩
  · rw [hiff]
    constructor
    · rintro ⟨hs, hd⟩
      refine ⟨hs, by rw [hd], fun i h1 h2 => Or.inl ?_⟩
      have h2' : i < (a.filled (-9999)).data.length := by rw [hd]; exact h2
      rw [List.get_of_eq hd ⟨i, h2'⟩]
    · rintro ⟨hs, hl, hel⟩
      refine ⟨hs, List.ext_get hl fun i h1 h2 => ?_⟩
      rcases hel i h1 h2 with h | ⟨hn1, hn2⟩
      · exact h
      · rw [(NCVal.isNaN_iff _).mp hn1, (NCVal.isNaN_iff _).mp hn2]
  · exact (hiff a a).mpr ⟨rfl, rfl⟩
  · rw [hiff, filled_resubstitute]
    exact ⟨rfl, rfl⟩
  · intro hne
    cases hcv : compare_var_arrays a b with
    | false => rfl
    | true => exact absurd ((hiff a b).mp hcv).1 hne

/-- C5 witness: the theorem applied at concrete arrays — a masked, NaN-holding
array compared with itself, and a shape-mismatch pair, discharging the shape
hypothesis. -/
theorem c5_arrays_equal_fill_nan_spec_witness :
    compare_var_arrays ⟨[2], [NCVal.int 7, NCVal.nan], [true, false]⟩
        ⟨[2], [NCVal.int 7, NCVal.nan], [true, false]⟩ = true ∧
    compare_var_arrays ⟨[2], [NCVal.int 7, NCVal.nan], [true, false]⟩
        ⟨[1], [NCVal.int 7], [false]⟩ = false :=
  ⟨(c5_arrays_equal_fill_nan_spec ⟨[2], [NCVal.int 7, NCVal.nan], [true, false]⟩
      ⟨[1], [NCVal.int 7], [false]⟩).2.1,
   (c5_arrays_equal_fill_nan_spec ⟨[2], [NCVal.int 7, NCVal.nan], [true, false]⟩
      ⟨[1], [NCVal.int 7], [false]⟩).2.2.2 (by decide)⟩

/-- C6: a `var_content` entry missing the two boolean fields (the variable
exists on only one side) makes `write_netcdf_var` return false without
raising, and the remaining entries still count: the verdict is true exactly
when the presence lists are empty and every entry carries both booleans as
true. -/
theorem c6_missing_variable_fields_not_equal (var_dict : VarDiff) :
    (∀ kv ∈ var_dict.var_content,
        (kv.2.atts_equal = none ∨ kv.2.arrays_equal = none) →
        write_netcdf_var var_dict = false) ∧
    (write_netcdf_var var_dict = true ↔
        var_dict.dev_present_only = [] ∧ var_dict.prod_present_only = [] ∧
        ∀ kv ∈ var_dict.var_content,
          kv.2.atts_equal = some true ∧ kv.2.arrays_equal = some true) := by
  have hiff : write_netcdf_var var_dict = true ↔
      var_dict.dev_present_only = [] ∧ var_dict.prod_present_only = [] ∧
      ∀ kv ∈ var_dict.var_content,
        kv.2.atts_equal = some true ∧ kv.2.arrays_equal = some true := by
    show var_dict.var_content.foldl var_entry_step
        (if var_dict.prod_present_only.length ≠ 0 then false
         else if var_dict.dev_present_only.length ≠ 0 then false else true) = true ↔ _
    rw [var_entry_fold_true_iff]
    rcases var_dict with ⟨po, dpo, vc⟩
    cases po <;> cases dpo <;> simp
  refine ⟨fun kv hmem hnone => ?_, hiff⟩
  cases hres : write_netcdf_var var_dict with
  | false => rfl
  | true =>
    have hgood := (hiff.mp hres).2.2 kv hmem
    rcases hnone with h | h
    · rw [h] at hgood
      exact absurd hgood.1 (by simp)
    · rw [h] at hgood
      exact absurd hgood.2 (by simp)

/-- C6 witness: the theorem applied to a diff whose first variable is
missing both booleans (present on one side only), with a later well-formed
entry — the verdict is false and no error occurs. -/
theorem c6_missing_variable_fields_not_equal_witness :
    write_netcdf_var ⟨[], [], [("lon", ⟨none, none⟩), ("sst", ⟨some true, some true⟩)]⟩ = false :=
  (c6_missing_variable_fields_not_equal
      ⟨[], [], [("lon", ⟨none, none⟩), ("sst", ⟨some true, some true⟩)]⟩).1
    ("lon", ⟨none, none⟩) (by decide) (Or.inl rfl)

/-- C10: when the global-attribute mismatch list holds exactly one entry
named `date_created`, `write_netcdf_atts` returns the verdict true together
with the two timestamp values, whatever the presence-only lists contain:
the carve-out on netcdf.py line 254 runs after the presence checks and
overwrites their verdict. -/
theorem c10_date_created_overrides_presence (att_dict : AttDiff) (p t : NCVal)
    (h : att_dict.global_att = [("date_created", p, t)]) :
    write_netcdf_atts att_dict = .ok (true, p, t) := by
  unfold write_netcdf_atts
  rw [h]
  simp

/-- C10 witness: the theorem applied to an attribute diff with non-empty
presence-only lists on both sides, discharging the mismatch-list
hypothesis. -/
theorem c10_date_created_overrides_presence_witness :
    write_netcdf_atts
        ⟨["ops_extra_att"], ["dev_extra_att"],
         [("date_created", NCVal.str ("2024-01-01"), NCVal.str ("2024-01-02"))]⟩ =
      .ok (true, NCVal.str ("2024-01-01"), NCVal.str ("2024-01-02")) :=
  c10_date_created_overrides_presence _ _ _ rfl


/-- Full characterization of iterating the per-run timeline cycle from an
empty store: the keys are exactly the run timestamps, and each run's entry
carries its counts and equality flag, with the archive pointer of every
non-final run redirected to the following run's archive file name and only
the final run holding the `"Current"` placeholder. -/
theorem run_steps_char (runs : List RunInput)
    (hts : (runs.map RunInput.date_str).Nodup)
    (harch : ∀ r ∈ runs, r.archive_name ≠ "Current") :
    NodupKeys (run_steps runs []) ∧
    (keysOf (run_steps runs [])).Perm (runs.map RunInput.date_str) ∧
    (∀ i (h : i < runs.length),
      lookupA (run_steps runs []) (runs.get ⟨i, h⟩).date_str =
        some (run_entry (runs.get ⟨i, h⟩)
          (if h2 : i + 1 < runs.length then (runs.get ⟨i + 1, h2⟩).archive_name
           else "Current"))) := by
  induction runs using List.reverseRecOn with
  | nil =>
    refine ⟨List.nodup_nil, List.Perm.refl _, ?_⟩
    intro i h
    exact absurd h (by simp)
  | append_singleton l r ih =>
    have hts' : (l.map RunInput.date_str).Nodup := by
      rw [List.map_append] at hts
      exact (List.nodup_append.mp hts).1
    have harch' : ∀ x ∈ l, x.archive_name ≠ "Current" := fun x hx =>
      harch x (List.mem_append_left _ hx)
    obtain ⟨ihnd, ihperm, ihchar⟩ := ih hts' harch'
    have hfresh_ts : r.date_str ∉ l.map RunInput.date_str := by
      rw [List.map_append] at hts
      have hd := List.nodup_append.mp hts
      exact fun hmem => hd.2.2 hmem (by simp)
    have hfresh : lookupA (run_steps l []) r.date_str = none := by
      rw [lookupA_none_iff]
      intro hmem
      exact hfresh_ts (ihperm.mem_iff.mp hmem)
    have hstep : run_steps (l ++ [r]) [] =
        timeline_run_step (run_steps l []) r.archive_name r.date_str
          r.num_ops r.num_uat r.nc_not_equal := by
      rw [run_steps, List.foldl_append]
      rfl
    refine ⟨?_, ?_, ?_⟩
    · rw [hstep]
      exact timeline_run_step_nodup _ _ _ _ _ _ ihnd hfresh
    · rw [hstep, List.map_append]
      exact (timeline_run_step_keys _ _ _ _ _ _ ihnd hfresh).trans
        (ihperm.append_right _)
    · intro i h
      rw [hstep]
      by_cases hi : i < l.length
      · have hget : (l ++ [r]).get ⟨i, h⟩ = l.get ⟨i, hi⟩ := by
          simp only [List.get_eq_getElem]
          exact List.getElem_append_left hi
        have hne : (l.get ⟨i, hi⟩).date_str ≠ r.date_str := by
          intro he
          exact hfresh_ts
            (he ▸ List.mem_map_of_mem RunInput.date_str (List.get_mem l _ _))
        rw [hget, timeline_run_step_lookup_old _ _ _ _ _ _ _ ihnd hne,
          ihchar i hi]
        simp only [Option.map_some']
        by_cases h2 : i + 1 < l.length
        · have harchne : (l.get ⟨i + 1, h2⟩).archive_name ≠ "Current" :=
            harch' _ (List.get_mem l _ _)
          rw [dif_pos h2]
          have h2' : i + 1 < (l ++ [r]).length := by
            simp only [List.length_append, List.length_singleton]
            omega
          rw [dif_pos h2']
          have hget2 : (l ++ [r]).get ⟨i + 1, h2'⟩ = l.get ⟨i + 1, h2⟩ := by
            simp only [List.get_eq_getElem]
            exact List.getElem_append_left h2
          rw [hget2]
          simp only [run_entry]
          rw [if_neg harchne]
        · have hi1 : i + 1 = l.length := by omega
          rw [dif_neg h2]
          have h2' : i + 1 < (l ++ [r]).length := by
            simp only [List.length_append, List.length_singleton]
            omega
          rw [dif_pos h2']
          have hget2 : (l ++ [r]).get ⟨i + 1, h2'⟩ = r := by
            simp only [List.get_eq_getElem]
            exact List.getElem_concat_length l r (i + 1) hi1 h2'
          rw [hget2]
          simp [run_entry]
      · have hi' : i = l.length := by
          have hlen : (l ++ [r]).length = l.length + 1 := by
            rw [List.length_append]
            rfl
          omega
        subst hi'
        have hget : (l ++ [r]).get ⟨l.length, h⟩ = r := by
          simp only [List.get_eq_getElem]
          exact List.getElem_concat_length l r l.length rfl h
        rw [hget, timeline_run_step_lookup_new]
        have hnot : ¬ l.length + 1 < (l ++ [r]).length := by
          simp only [List.length_append, List.length_singleton]
          omega
        rw [dif_neg hnot]
        rfl


/-- C7 (counterexample): the claim says previously persisted entries with
other timestamps are preserved unchanged through the read-modify-write
cycle, but the second run's cycle rewrites the first run's entry: its
archive pointer changes from the `"Current"` placeholder to the new archive
file name. -/
theorem c7_prior_entry_not_preserved_counterexample :
    lookupA (timeline_run_step (timeline_run_step [] "" "t1" 1 1 [])
        "t1-aqua.html" "t2" 2 2 []) "t1" ≠
      lookupA (timeline_run_step [] "" "t1" 1 1 []) "t1" := by
  decide

/-- C7 (amended): the store is keyed by run timestamp with append-or-update
semantics.  Writing N sequential runs with N distinct timestamps from an
empty store yields exactly N entries; each entry carries the counts and
equality flag of the run it was written from, with its archive pointer
equal to the `"Current"` placeholder for the latest run and otherwise
redirected (by the following run's cycle) to that run's archive file name.
Re-running with an already-present timestamp overwrites that entry in place
rather than adding a new one. -/
theorem c7_timeline_append_or_update (runs : List RunInput)
    (hts : (runs.map RunInput.date_str).Nodup)
    (harch : ∀ r ∈ runs, r.archive_name ≠ "Current") :
    (run_steps runs []).length = runs.length ∧
    (∀ i (h : i < runs.length),
      lookupA (run_steps runs []) (runs.get ⟨i, h⟩).date_str =
        some (run_entry (runs.get ⟨i, h⟩)
          (if h2 : i + 1 < runs.length then (runs.get ⟨i + 1, h2⟩).archive_name
           else "Current"))) ∧
    (∀ (store : TimelineStore) (a k : String) (n u : Nat) (ne : List String),
      NodupKeys store → (lookupA store k).isSome = true →
      (timeline_run_step store a k n u ne).length = store.length ∧
      lookupA (timeline_run_step store a k n u ne) k =
        some ⟨n, u, ne.length == 0, "Current"⟩) := by
  obtain ⟨hnd, hperm, hchar⟩ := run_steps_char runs hts harch
  refine ⟨?_, hchar, ?_⟩
  · have hl := hperm.length_eq
    rw [keysOf, List.length_map, List.length_map] at hl
    exact hl
  · intro store a k n u ne hnd2 hsome
    exact ⟨timeline_run_step_length_present store a k n u ne hnd2 hsome,
      timeline_run_step_lookup_new store a k n u ne⟩

/-- C7 witness: the amended theorem applied to two concrete runs with
distinct timestamps, discharging both hypotheses. -/
theorem c7_timeline_append_or_update_witness :
    (run_steps [⟨"", "t1", 1, 1, []⟩, ⟨"t1-aqua.html", "t2", 2, 2, ["g.nc"]⟩] []).length = 2 :=
  (c7_timeline_append_or_update
    [⟨"", "t1", 1, 1, []⟩, ⟨"t1-aqua.html", "t2", 2, 2, ["g.nc"]⟩]
    (by decide) (by decide)).1

/-- C8 (code bug): rotating a prior current artifact whose text holds no
marker line of the expected form (no line starting with `<h1>`) does not
complete with a best-effort archive file name: `date_str` is never assigned
by the scanning loop and the archive-name construction on write.py line 282
raises `NameError`, aborting the rotation. -/
theorem c8_rotation_no_marker_raises :
    archive_html_report true ["<html>", "<body>"] "aqua" =
      .error ("NameError: date_str") := by
  rfl

/-- C9: after a run whose rotation produced archive file name `a` (never the
literal `"Current"`), every persisted entry at another timestamp that held
the `"Current"` placeholder now points at `a`, the run's own entry is
written with the placeholder, and no entry at another timestamp holds the
placeholder — the current run's entry is the only one. -/
theorem c9_current_placeholder_rewritten (store : TimelineStore) (a ts : String)
    (n u : Nat) (ne : List String) (hnd : NodupKeys store) (ha : a ≠ "Current") :
    (∀ k e, k ≠ ts → lookupA store k = some e → e.archive = "Current" →
        lookupA (timeline_run_step store a ts n u ne) k =
          some { e with archive := a }) ∧
    lookupA (timeline_run_step store a ts n u ne) ts =
      some ⟨n, u, ne.length == 0, "Current"⟩ ∧
    (∀ k e', k ≠ ts → lookupA (timeline_run_step store a ts n u ne) k = some e' →
        e'.archive ≠ "Current") := by
  refine ⟨?_, timeline_run_step_lookup_new store a ts n u ne, ?_⟩
  · intro k e hk he harc
    rw [timeline_run_step_lookup_old store a ts n u ne k hnd hk, he]
    simp [harc]
  · intro k e' hk he'
    rw [timeline_run_step_lookup_old store a ts n u ne k hnd hk] at he'
    cases hst : lookupA store k with
    | none =>
      rw [hst] at he'
      simp at he'
    | some e =>
      rw [hst] at he'
      simp only [Option.map_some', Option.some.injEq] at he'
      subst he'
      by_cases hc : e.archive = "Current"
      · rw [if_pos hc]
        exact ha
      · rw [if_neg hc]
        exact hc

/-- C9 witness: the theorem applied to a concrete one-entry store holding
the placeholder, discharging every hypothesis. -/
theorem c9_current_placeholder_rewritten_witness :
    lookupA (timeline_run_step [("t1", ⟨1, 1, true, "Current"⟩)]
        "t1-aqua.html" "t2" 2 3 ["g.nc"]) "t1" =
      some ⟨1, 1, true, "t1-aqua.html"⟩ :=
  (c9_current_placeholder_rewritten [("t1", ⟨1, 1, true, "Current"⟩)]
      "t1-aqua.html" "t2" 2 3 ["g.nc"] (by decide) (by decide)).1
    "t1" ⟨1, 1, true, "Current"⟩ (by decide) rfl rfl

end GenerateCompare
